import Mathlib

/-!
Verification of the text-utilities MCP server (stdio variant, `server/index.js`,
with the SSE variant in `server.js`).

JS strings are modelled as `List Char` (one element per code unit; all inputs in
this development are BMP non-surrogate, where code units and scalar values
coincide).  Randomness (`Math.random`) is modelled as an explicit draw function
`g : Nat → Nat`, where `g i` is the value `Math.floor(Math.random() * (i + 1))`
computed at loop index `i`; the semantics of `Math.random() ∈ [0,1)` appear as
the hypothesis `g i ≤ i`.  Thrown JS exceptions are modelled with
`Except String`.
-/

namespace TextUtils

/-- Models a JavaScript value as far as the dispatcher inspects one:
`typeof` and truthiness.  Strings are lists of code units. -/
inductive JsValue where
  | undef : JsValue
  | null : JsValue
  | bool : Bool → JsValue
  | num : Int → JsValue
  | str : List Char → JsValue
deriving DecidableEq

/-- Models the JS `typeof` operator on the fragment of values above. -/
def jsTypeof : JsValue → String
  | .undef => "undefined"
  | .null => "object"
  | .bool _ => "boolean"
  | .num _ => "number"
  | .str _ => "string"

/-- Models JS truthiness: `undefined`, `null`, `false`, `0` and `""` are falsy. -/
def truthy : JsValue → Bool
  | .undef => false
  | .null => false
  | .bool b => b
  | .num n => n != 0
  | .str s => !s.isEmpty

/-- Models `args?.text || ""` on line 314 of `server/index.js`: a falsy
argument value is replaced by the empty string. -/
def coerceText (v : JsValue) : JsValue :=
  if truthy v then v else .str []

/-- `TOOL_TIMEOUT_MS` (line 29): tool timeout in milliseconds. -/
def TOOL_TIMEOUT_MS : Nat := 30000

/-- `MAX_INPUT_LENGTH` (line 32): maximum input length in characters. -/
def MAX_INPUT_LENGTH : Nat := 1000000

/-- The message of the error thrown on line 39 for a non-string input. -/
def invalidTypeMsg (toolName : String) (typeofGot : String) : String :=
  "Invalid input type for " ++ toolName ++ ": expected string, got " ++ typeofGot

/-- The message of the error thrown on lines 43-45 for an over-long input. -/
def inputTooLargeMsg (toolName : String) (len : Nat) : String :=
  "Input too large for " ++ toolName ++ ": " ++ toString len ++
    " characters exceeds maximum of " ++ toString MAX_INPUT_LENGTH

/-- `validateInput` (lines 37-49): rejects non-string values, then rejects
strings longer than `MAX_INPUT_LENGTH`, otherwise returns the string
unchanged.  A thrown `Error` becomes `Except.error` of its message. -/
def validateInput (v : JsValue) (toolName : String) : Except String (List Char) :=
  match v with
  | .str text =>
    if text.length > MAX_INPUT_LENGTH then
      .error (inputTooLargeMsg toolName text.length)
    else
      .ok text
  | other => .error (invalidTypeMsg toolName (jsTypeof other))

/-- `withTimeout` (lines 54-64): `Promise.race` between the work and a timer.
The work is modelled by its settlement time `settleTime` (in ms) and its
outcome `work`; the timer fires at `timeoutMs`.  Whichever settles strictly
first wins the race. -/
def withTimeout (settleTime : Nat) (work : Except String α) (timeoutMs : Nat)
    (toolName : String) : Except String α :=
  if settleTime < timeoutMs then
    work
  else
    .error ("Tool " ++ toolName ++ " timed out after " ++ toString timeoutMs ++ "ms")

/-- The element swap `[chars[i], chars[j]] = [chars[j], chars[i]]`
(line 73).  Both originals are read before either position is written. -/
def listSwap (cs : List Char) (i j : Nat) : List Char :=
  (cs.set i (cs.getD j ' ')).set j (cs.getD i ' ')

/-- The loop of `fisherYatesShuffle` (lines 71-74): at index `i ≥ 1` swap
positions `i` and `g i`, then continue with `i - 1`; stop at `i = 0`. -/
def fyLoop (g : Nat → Nat) : Nat → List Char → List Char
  | 0, cs => cs
  | i + 1, cs => fyLoop g i (listSwap cs (i + 1) (g (i + 1)))

/-- `fisherYatesShuffle` (lines 69-76): split into characters, run the
swap loop from index `length - 1` down to `1`, and re-join. -/
def fisherYatesShuffle (g : Nat → Nat) (text : List Char) : List Char :=
  fyLoop g (text.length - 1) text

/-- Code points matched by the JS regexp `\s` (also the set removed by
`String.prototype.trim`). -/
def jsWhitespaceChars : List Char :=
  [' ', '\t', '\n', '\r', Char.ofNat 0x0b, Char.ofNat 0x0c,
   Char.ofNat 0xa0, Char.ofNat 0x1680,
   Char.ofNat 0x2000, Char.ofNat 0x2001, Char.ofNat 0x2002, Char.ofNat 0x2003,
   Char.ofNat 0x2004, Char.ofNat 0x2005, Char.ofNat 0x2006, Char.ofNat 0x2007,
   Char.ofNat 0x2008, Char.ofNat 0x2009, Char.ofNat 0x200a,
   Char.ofNat 0x2028, Char.ofNat 0x2029, Char.ofNat 0x202f,
   Char.ofNat 0x205f, Char.ofNat 0x3000, Char.ofNat 0xfeff]

/-- Whether a character matches the JS regexp `\s`. -/
def isJsWs (c : Char) : Bool :=
  jsWhitespaceChars.contains c

/-- Models `String.prototype.trim`: remove leading and trailing
whitespace code units. -/
def jsTrim (s : List Char) : List Char :=
  ((s.dropWhile isJsWs).reverse.dropWhile isJsWs).reverse

/-- Models `String.prototype.split(/\s+/)`: split on maximal runs of
whitespace; a leading or trailing run contributes an empty segment (as in
JS regexp split).  `skippingWs = true` means the scanner stands inside a
whitespace run; `acc` holds the current segment reversed. -/
def splitWsGo (skippingWs : Bool) : List Char → List Char → List (List Char)
  | [], acc => if skippingWs then [[]] else [acc.reverse]
  | c :: rest, acc =>
    if skippingWs then
      if isJsWs c then splitWsGo true rest [] else splitWsGo false rest [c]
    else
      if isJsWs c then acc.reverse :: splitWsGo true rest []
      else splitWsGo false rest (c :: acc)

/-- `text.split(/\s+/)` as used on line 134. -/
def splitWs (s : List Char) : List (List Char) :=
  splitWsGo false s []

/-- Models the default Unicode lowercase mapping used by
`String.prototype.toLowerCase` on a fragment: ASCII, plus the code points
exercised in this development (Kelvin sign U+212A and Greek capital Mu
U+039C); all other code points are left fixed. -/
def jsToLowerChar (c : Char) : List Char :=
  if 65 ≤ c.toNat ∧ c.toNat ≤ 90 then [Char.ofNat (c.toNat + 32)]
  else if c = Char.ofNat 0x212a then ['k']
  else if c = Char.ofNat 0x39c then [Char.ofNat 0x3bc]
  else [c]

/-- Models the default Unicode uppercase mapping used by
`String.prototype.toUpperCase` on a fragment: ASCII, plus the code points
exercised in this development (micro sign U+00B5, sharp s U+00DF, long s
U+017F, Greek small mu U+03BC); all other code points are left fixed.  A
full mapping may expand one code unit to several (as sharp s does). -/
def jsToUpperChar (c : Char) : List Char :=
  if 97 ≤ c.toNat ∧ c.toNat ≤ 122 then [Char.ofNat (c.toNat - 32)]
  else if c = Char.ofNat 0xb5 then [Char.ofNat 0x39c]
  else if c = Char.ofNat 0xdf then ['S', 'S']
  else if c = Char.ofNat 0x17f then ['S']
  else if c = Char.ofNat 0x3bc then [Char.ofNat 0x39c]
  else [c]

/-- `text.toLowerCase()` (line 117). -/
def jsToLower (s : List Char) : List Char :=
  (s.map jsToLowerChar).flatten

/-- `text.toUpperCase()` (line 100). -/
def jsToUpper (s : List Char) : List Char :=
  (s.map jsToUpperChar).flatten

/-- `text.split("").reverse().join("")` (line 83). -/
def reverseString (text : List Char) : List Char :=
  text.reverse

/-- `text.trim().split(/\s+/).filter((word) => word.length > 0).length`
(lines 134-135). -/
def wordCountOf (text : List Char) : Nat :=
  ((splitWs (jsTrim text)).filter (fun word => decide (word.length > 0))).length

/-- `text.replace(/\s/g, "")` (line 154). -/
def removeWs (text : List Char) : List Char :=
  text.filter (fun c => !isJsWs c)

/-- A JSON scalar as produced by the handlers' `JSON.stringify` payloads. -/
inductive JVal where
  | s : String → JVal
  | n : Nat → JVal
  | b : Bool → JVal
deriving DecidableEq

/-- A JSON object, as an association list in `JSON.stringify` key order. -/
abbrev JObj := List (String × JVal)

/-- `${count} word${count !== 1 ? "s" : ""}` (line 145). -/
def wordCountResultText (count : Nat) : String :=
  toString count ++ " word" ++ (if count ≠ 1 then "s" else "")

/-- The `result` string of `character_count` (line 164). -/
def charCountResultText (total withoutSpaces : Nat) : String :=
  toString total ++ " total character" ++ (if total ≠ 1 then "s" else "") ++
    " (" ++ toString withoutSpaces ++ " without spaces)"

/-- `toolHandlers.reverse_text` (lines 82-97), as its JSON payload. -/
def reverseTextHandler (text : List Char) : JObj :=
  [("success", .b true), ("tool", .s "reverse_text"),
   ("input_length", .n text.length),
   ("result", .s (reverseString text).asString)]

/-- `toolHandlers.uppercase_text` (lines 99-114). -/
def uppercaseTextHandler (text : List Char) : JObj :=
  [("success", .b true), ("tool", .s "uppercase_text"),
   ("input_length", .n text.length),
   ("result", .s (jsToUpper text).asString)]

/-- `toolHandlers.lowercase_text` (lines 116-131). -/
def lowercaseTextHandler (text : List Char) : JObj :=
  [("success", .b true), ("tool", .s "lowercase_text"),
   ("input_length", .n text.length),
   ("result", .s (jsToLower text).asString)]

/-- `toolHandlers.word_count` (lines 133-150). -/
def wordCountHandler (text : List Char) : JObj :=
  [("success", .b true), ("tool", .s "word_count"),
   ("input_length", .n text.length),
   ("word_count", .n (wordCountOf text)),
   ("result", .s (wordCountResultText (wordCountOf text)))]

/-- `toolHandlers.character_count` (lines 152-169): reports
`total_characters` and `characters_without_spaces` rather than
`input_length`. -/
def characterCountHandler (text : List Char) : JObj :=
  [("success", .b true), ("tool", .s "character_count"),
   ("total_characters", .n text.length),
   ("characters_without_spaces", .n (removeWs text).length),
   ("result", .s (charCountResultText text.length (removeWs text).length))]

/-- `toolHandlers.shuffle_text` (lines 171-186), with the random draws `g`
made explicit. -/
def shuffleTextHandler (g : Nat → Nat) (text : List Char) : JObj :=
  [("success", .b true), ("tool", .s "shuffle_text"),
   ("input_length", .n text.length),
   ("result", .s (fisherYatesShuffle g text).asString)]

/-- The keys of the `toolHandlers` object, in insertion order
(`Object.keys(toolHandlers)`). -/
def toolNames : List String :=
  ["reverse_text", "uppercase_text", "lowercase_text",
   "word_count", "character_count", "shuffle_text"]

/-- The six own properties of the `toolHandlers` object literal
(lines 81-187), keyed by tool name.  The property access
`toolHandlers[name]` on line 306 additionally reaches inherited
`Object.prototype` members for an object literal; the full lookup is
modelled by `dispatchCallTool` below. -/
def toolHandlers (g : Nat → Nat) (name : String) : Option (List Char → JObj) :=
  if name = "reverse_text" then some reverseTextHandler
  else if name = "uppercase_text" then some uppercaseTextHandler
  else if name = "lowercase_text" then some lowercaseTextHandler
  else if name = "word_count" then some wordCountHandler
  else if name = "character_count" then some characterCountHandler
  else if name = "shuffle_text" then some (shuffleTextHandler g)
  else none

/-- The message of the hard error thrown on lines 307-309 for an unknown
tool name. -/
def unknownToolMsg (name : String) : String :=
  "Unknown tool: " ++ name ++ ". Available tools: " ++
    String.intercalate ", " toolNames

/-- The body of the `try` block (lines 312-324): validate the coerced
`text` argument, then run the handler under the timeout guard.  The
handler's promise is already resolved (`Promise.resolve(...)`), so it
settles at time 0. -/
def dispatchPipeline (name : String) (handler : List Char → JObj)
    (arg : JsValue) : Except String JObj :=
  match validateInput (coerceText arg) name with
  | .error e => .error e
  | .ok text => withTimeout 0 (.ok (handler text)) TOOL_TIMEOUT_MS name

/-- The response returned by the `CallToolRequestSchema` handler: its JSON
payload and whether the response carries `isError: true` (a success
response has no `isError` field, i.e. it is falsy). -/
structure ToolResponse where
  body : JObj
  isError : Bool
deriving DecidableEq

/-- The failure envelope built in the `catch` block (lines 329-341). -/
def errorEnvelope (name : String) (msg : String) : ToolResponse :=
  ⟨[("success", .b false), ("tool", .s name), ("error", .s msg)], true⟩

/-- The `CallToolRequestSchema` handler (lines 299-343) restricted to
names that do not collide with `Object.prototype` members (this covers
all six registered names and typical unknown names): an own-key hit runs
the handler pipeline inside the try/catch and any failure there is
caught and returned as a structured failure envelope; any other such
name makes the line-306 check falsy, so the handler throws before the
`try` block (`Except.error`).  The full dispatcher including the
prototype chain is `dispatchCallTool` below, which agrees with this
function on every registered name (`dispatchCallTool_eq_of_own`). -/
def handleCallTool (g : Nat → Nat) (name : String) (arg : JsValue) :
    Except String ToolResponse :=
  match toolHandlers g name with
  | none => .error (unknownToolMsg name)
  | some handler =>
    .ok (match dispatchPipeline name handler arg with
         | .ok obj => ⟨obj, false⟩
         | .error e => errorEnvelope name e)

/-- The own property names of `Object.prototype` (per ECMAScript, as in
Node/V8).  A plain object literal such as `toolHandlers` inherits all of
them through its prototype chain, and each resolves to a truthy value (a
built-in function, or `Object.prototype` itself for `__proto__`), so the
falsy check `!toolHandlers[name]` on line 306 does not fire for these
names. -/
def objectPrototypeProps : List String :=
  ["constructor", "__defineGetter__", "__defineSetter__", "hasOwnProperty",
   "__lookupGetter__", "__lookupSetter__", "isPrototypeOf",
   "propertyIsEnumerable", "toString", "valueOf", "__proto__",
   "toLocaleString"]

/-- Outcome of one `CallToolRequestSchema` invocation with the prototype
chain taken into account.  `threw` is a hard protocol-level failure
raised before the `try` block; `responded` is a structured response (the
success payload or the caught-error envelope); `inheritedMember` records
that the property access hit a truthy inherited `Object.prototype`
member, so the unknown-tool throw was skipped and execution entered the
try/catch with that member — what the member call then produces (a raw
non-envelope value, or for a non-callable or failing member a caught
`TypeError` turned into a soft envelope) depends on the particular
member and is not modelled further. -/
inductive DispatchResult where
  | threw : String → DispatchResult
  | responded : ToolResponse → DispatchResult
  | inheritedMember : DispatchResult
deriving DecidableEq

/-- The `CallToolRequestSchema` handler (lines 299-343) with the full
property lookup of line 306: an own key runs its handler pipeline inside
the try/catch; a name hitting an inherited `Object.prototype` member is
truthy and skips the unknown-tool throw; only a name that resolves to
nothing throws the hard unknown-tool error. -/
def dispatchCallTool (g : Nat → Nat) (name : String) (arg : JsValue) :
    DispatchResult :=
  match toolHandlers g name with
  | some handler =>
    match dispatchPipeline name handler arg with
    | .ok obj => .responded ⟨obj, false⟩
    | .error e => .responded (errorEnvelope name e)
  | none =>
    if name ∈ objectPrototypeProps then .inheritedMember
    else .threw (unknownToolMsg name)

end TextUtils

namespace TextUtils

/-- Moving the element at index `k` to the front while writing `x` into
index `k` permutes a cons of the original list. -/
lemma getElem_cons_set_perm (xs : List Char) :
    ∀ (k : Nat) (x : Char) (h : k < xs.length),
      List.Perm (xs[k] :: xs.set k x) (x :: xs) := by
  induction xs with
  | nil => intro k x h; simp at h
  | cons y ys ih =>
    intro k x h
    cases k with
    | zero =>
      simpa using List.Perm.swap x y ys
    | succ k =>
      have hk : k < ys.length := by simpa using h
      have step1 : List.Perm (ys[k] :: y :: ys.set k x) (y :: ys[k] :: ys.set k x) :=
        List.Perm.swap y (ys[k]) (ys.set k x)
      have step2 : List.Perm (y :: ys[k] :: ys.set k x) (y :: x :: ys) :=
        (ih k x hk).cons y
      have step3 : List.Perm (y :: x :: ys) (x :: y :: ys) :=
        List.Perm.swap x y ys
      simpa using (step1.trans step2).trans step3

/-- Writing `cs[j]` into index `i` and `cs[i]` into index `j` permutes the
list. -/
lemma set_set_perm (cs : List Char) :
    ∀ (i j : Nat) (hi : i < cs.length) (hj : j < cs.length),
      List.Perm ((cs.set i cs[j]).set j cs[i]) cs := by
  induction cs with
  | nil => intro i j hi hj; simp at hi
  | cons y ys ih =>
    intro i j hi hj
    cases i with
    | zero =>
      cases j with
      | zero => simp
      | succ k =>
        have hk : k < ys.length := by simpa using hj
        simpa using getElem_cons_set_perm ys k y hk
    | succ m =>
      cases j with
      | zero =>
        have hm : m < ys.length := by simpa using hi
        simpa using getElem_cons_set_perm ys m y hm
      | succ k =>
        have hm : m < ys.length := by simpa using hi
        have hk : k < ys.length := by simpa using hj
        simpa using (ih m k hm hk).cons y

/-- The JS destructuring swap permutes the list when both indices are in
bounds. -/
lemma listSwap_perm (cs : List Char) (i j : Nat) (hi : i < cs.length)
    (hj : j < cs.length) : List.Perm (listSwap cs i j) cs := by
  unfold listSwap
  rw [List.getD_eq_getElem cs ' ' hj, List.getD_eq_getElem cs ' ' hi]
  exact set_set_perm cs i j hi hj

/-- Every pass of the Fisher-Yates loop permutes the list, provided the
starting index is in bounds and each draw `g i` lies in `[0, i]`. -/
lemma fyLoop_perm (g : Nat → Nat) (hg : ∀ n, g n ≤ n) :
    ∀ (i : Nat) (cs : List Char), i < cs.length →
      List.Perm (fyLoop g i cs) cs := by
  intro i
  induction i with
  | zero => intro cs _; exact List.Perm.refl cs
  | succ i ih =>
    intro cs h
    have hj : g (i + 1) < cs.length := lt_of_le_of_lt (hg (i + 1)) h
    have hswap : List.Perm (listSwap cs (i + 1) (g (i + 1))) cs :=
      listSwap_perm cs (i + 1) (g (i + 1)) h hj
    have hlen : (listSwap cs (i + 1) (g (i + 1))).length = cs.length :=
      hswap.length_eq
    have hi : i < (listSwap cs (i + 1) (g (i + 1))).length := by omega
    exact (ih (listSwap cs (i + 1) (g (i + 1))) hi).trans hswap

/-- C4: for every input string and every sequence of random draws with
`g i ∈ [0, i]` (the semantics of `Math.floor(Math.random() * (i + 1))`),
`fisherYatesShuffle` returns a permutation of its input: the length is
preserved and the multiset of characters is preserved. -/
theorem shuffle_is_permutation (g : Nat → Nat) (text : List Char)
    (hg : ∀ n, g n ≤ n) :
    (fisherYatesShuffle g text).length = text.length ∧
    List.Perm (fisherYatesShuffle g text) text := by
  have hperm : List.Perm (fisherYatesShuffle g text) text := by
    unfold fisherYatesShuffle
    cases text with
    | nil => exact List.Perm.refl _
    | cons c cs =>
      have h : (c :: cs).length - 1 < (c :: cs).length := by simp
      exact fyLoop_perm g hg ((c :: cs).length - 1) (c :: cs) h
  exact ⟨hperm.length_eq, hperm⟩

/-- Witness for C4 at a concrete input and draw sequence. -/
theorem shuffle_is_permutation_witness :
    (∀ n : Nat, (fun _ => 0 : Nat → Nat) n ≤ n) ∧
    ((fisherYatesShuffle (fun _ => 0) "Hello".toList).length =
        "Hello".toList.length ∧
      List.Perm (fisherYatesShuffle (fun _ => 0) "Hello".toList)
        "Hello".toList) :=
  ⟨fun n => Nat.zero_le n,
   shuffle_is_permutation (fun _ => 0) "Hello".toList (fun n => Nat.zero_le n)⟩

/-- C10: on inputs of length 0 or 1 the swap loop never runs, so
`fisherYatesShuffle` returns its input unchanged for every draw
sequence. -/
theorem shuffle_short_input_fixed (g : Nat → Nat) (s : List Char)
    (h : s.length ≤ 1) : fisherYatesShuffle g s = s := by
  unfold fisherYatesShuffle
  have h0 : s.length - 1 = 0 := by omega
  rw [h0, fyLoop]

/-- Witness for C10 on a one-character input. -/
theorem shuffle_short_input_fixed_witness :
    (['a'] : List Char).length ≤ 1 ∧
      fisherYatesShuffle (fun n => n) ['a'] = ['a'] :=
  ⟨by decide, shuffle_short_input_fixed (fun n => n) ['a'] (by decide)⟩

/-- C7: `reverseString` is an involution at the code-unit boundary, and
`reverse_text` maps "Hello World" to "dlroW olleH" (also in the `result`
field of its payload). -/
theorem reverse_involution (s : List Char) :
    reverseString (reverseString s) = s ∧
    reverseString "Hello World".toList = "dlroW olleH".toList ∧
    List.lookup "result" (reverseTextHandler "Hello World".toList) =
      some (.s "dlroW olleH") := by
  refine ⟨List.reverse_reverse s, by decide, by decide⟩

/-- C3: the `character_count` payload carries `total_characters` (the total
element count) and `characters_without_spaces` (the count excluding
whitespace-matching elements), has no `input_length` field, and on
"Hello World" reports 11 and 10. -/
theorem character_count_fields (text : List Char) :
    List.lookup "total_characters" (characterCountHandler text) =
        some (.n text.length) ∧
    List.lookup "characters_without_spaces" (characterCountHandler text) =
        some (.n (removeWs text).length) ∧
    List.lookup "input_length" (characterCountHandler text) = none ∧
    "Hello World".toList.length = 11 ∧
    (removeWs "Hello World".toList).length = 10 :=
  ⟨rfl, rfl, rfl, by decide, by decide⟩

/-- C6: `word_count` of an all-whitespace (in particular empty) string is
0, and counting collapses runs of whitespace: `word_count "a b  c" = 3`. -/
theorem word_count_spec (s : List Char) :
    ((∀ c ∈ s, isJsWs c = true) → wordCountOf s = 0) ∧
    wordCountOf [] = 0 ∧
    wordCountOf "a b  c".toList = 3 := by
  refine ⟨?_, rfl, by decide⟩
  intro h
  have h1 : s.dropWhile isJsWs = [] := List.dropWhile_eq_nil_iff.mpr h
  unfold wordCountOf jsTrim
  rw [h1]
  rfl

/-- Witness for C6 on a concrete whitespace-only input. -/
theorem word_count_spec_witness :
    (∀ c ∈ " \t ".toList, isJsWs c = true) ∧ wordCountOf " \t ".toList = 0 :=
  ⟨by decide, (word_count_spec " \t ".toList).1 (by decide)⟩

/-- C5: the timeout guard races the work against a timer with default
deadline `TOOL_TIMEOUT_MS = 30000` ms; if the work settles first its
outcome (result or error) propagates unchanged, and if the timer fires
first the guard fails with an error naming the tool and the deadline. -/
theorem timeout_guard_race (settleTime timeoutMs : Nat) (toolName : String)
    (work : Except String JObj) :
    TOOL_TIMEOUT_MS = 30000 ∧
    (settleTime < timeoutMs →
      withTimeout settleTime work timeoutMs toolName = work) ∧
    (timeoutMs ≤ settleTime →
      withTimeout settleTime work timeoutMs toolName =
        .error ("Tool " ++ toolName ++ " timed out after " ++
          toString timeoutMs ++ "ms")) := by
  refine ⟨rfl, ?_, ?_⟩ <;> intro h <;> unfold withTimeout
  · rw [if_pos h]
  · rw [if_neg (by omega)]

/-- Witness for C5: a work item settling at 0 ms propagates, one settling
at the deadline yields the timeout error. -/
theorem timeout_guard_race_witness :
    (0 < TOOL_TIMEOUT_MS ∧
      withTimeout 0 (.ok ([] : JObj)) TOOL_TIMEOUT_MS "word_count" =
        .ok ([] : JObj)) ∧
    (TOOL_TIMEOUT_MS ≤ 30000 ∧
      withTimeout 30000 (.ok ([] : JObj)) TOOL_TIMEOUT_MS "word_count" =
        .error "Tool word_count timed out after 30000ms") := by
  refine ⟨⟨by decide, ?_⟩, ⟨by decide, ?_⟩⟩
  · exact (timeout_guard_race 0 TOOL_TIMEOUT_MS "word_count" (.ok [])).2.1
      (by decide)
  · have h := (timeout_guard_race 30000 TOOL_TIMEOUT_MS "word_count"
      (.ok [])).2.2 (by decide)
    simpa using h

end TextUtils

namespace TextUtils

/-- Case-mapping interchange holds character-by-character on the ASCII
range. -/
lemma ascii_case_char : ∀ n : Nat, n < 128 →
    jsToUpper (jsToLowerChar (Char.ofNat n)) = jsToUpperChar (Char.ofNat n) ∧
    jsToLower (jsToUpperChar (Char.ofNat n)) = jsToLowerChar (Char.ofNat n) := by
  decide

/-- `toLowerCase` distributes over cons. -/
lemma jsToLower_cons (c : Char) (s : List Char) :
    jsToLower (c :: s) = jsToLowerChar c ++ jsToLower s := by
  simp [jsToLower]

/-- `toUpperCase` distributes over cons. -/
lemma jsToUpper_cons (c : Char) (s : List Char) :
    jsToUpper (c :: s) = jsToUpperChar c ++ jsToUpper s := by
  simp [jsToUpper]

/-- `toLowerCase` distributes over append. -/
lemma jsToLower_append (a b : List Char) :
    jsToLower (a ++ b) = jsToLower a ++ jsToLower b := by
  simp [jsToLower]

/-- `toUpperCase` distributes over append. -/
lemma jsToUpper_append (a b : List Char) :
    jsToUpper (a ++ b) = jsToUpper a ++ jsToUpper b := by
  simp [jsToUpper]

/-- C8 counterexample: with the default Unicode case mappings of
`toUpperCase`/`toLowerCase`, the interchange identities fail: on the
Kelvin sign U+212A, `upper (lower s) ≠ upper s`, and on the long s U+017F,
`lower (upper s) ≠ lower s`. -/
theorem case_mapping_counterexample :
    jsToUpper (jsToLower [Char.ofNat 0x212a]) ≠ jsToUpper [Char.ofNat 0x212a] ∧
    jsToLower (jsToUpper [Char.ofNat 0x17f]) ≠ jsToLower [Char.ofNat 0x17f] := by
  decide

/-- C8 (amended): for strings of ASCII characters,
`upper (lower s) = upper s` and `lower (upper s) = lower s`. -/
theorem case_mapping_ascii_interchange (s : List Char)
    (h : ∀ c ∈ s, c.toNat < 128) :
    jsToUpper (jsToLower s) = jsToUpper s ∧
    jsToLower (jsToUpper s) = jsToLower s := by
  induction s with
  | nil => exact ⟨rfl, rfl⟩
  | cons c cs ih =>
    have hc : c.toNat < 128 := h c (List.mem_cons_self c cs)
    have hcs : ∀ x ∈ cs, x.toNat < 128 := fun x hx => h x (List.mem_cons_of_mem c hx)
    obtain ⟨ih1, ih2⟩ := ih hcs
    have hchar := ascii_case_char c.toNat hc
    rw [Char.ofNat_toNat] at hchar
    constructor
    · rw [jsToLower_cons, jsToUpper_append, hchar.1, ih1, jsToUpper_cons]
    · rw [jsToUpper_cons, jsToLower_append, hchar.2, ih2, jsToLower_cons]

/-- Witness for C8 (amended) on a concrete ASCII string. -/
theorem case_mapping_ascii_interchange_witness :
    (∀ c ∈ "Hello World".toList, c.toNat < 128) ∧
    (jsToUpper (jsToLower "Hello World".toList) =
        jsToUpper "Hello World".toList ∧
      jsToLower (jsToUpper "Hello World".toList) =
        jsToLower "Hello World".toList) :=
  ⟨by decide, case_mapping_ascii_interchange "Hello World".toList (by decide)⟩

/-- A name outside the registry resolves to no handler. -/
lemma toolHandlers_eq_none (g : Nat → Nat) (name : String)
    (h : name ∉ toolNames) : toolHandlers g name = none := by
  simp [toolNames] at h
  obtain ⟨h1, h2, h3, h4, h5, h6⟩ := h
  simp [toolHandlers, h1, h2, h3, h4, h5, h6]

/-- Every registered name resolves to a handler. -/
lemma exists_handler_of_mem (g : Nat → Nat) (name : String)
    (h : name ∈ toolNames) : ∃ handler, toolHandlers g name = some handler := by
  fin_cases h <;> exact ⟨_, rfl⟩

/-- A resolved handler applied to validated input succeeds with a
non-error response. -/
lemma handleCallTool_ok_of_valid (g : Nat → Nat) (name : String)
    (handler : List Char → JObj) (arg : JsValue) (text : List Char)
    (hh : toolHandlers g name = some handler)
    (hv : validateInput (coerceText arg) name = .ok text) :
    handleCallTool g name arg = .ok ⟨handler text, false⟩ := by
  have hp : dispatchPipeline name handler arg = .ok (handler text) := by
    unfold dispatchPipeline
    rw [hv]
    rfl
  unfold handleCallTool
  rw [hh]
  simp only [hp]

/-- On a registered name the full dispatcher and its own-key restriction
`handleCallTool` produce the same structured responses. -/
lemma dispatchCallTool_eq_of_own (g : Nat → Nat) (name : String)
    (arg : JsValue) (handler : List Char → JObj)
    (hh : toolHandlers g name = some handler) (r : ToolResponse) :
    dispatchCallTool g name arg = .responded r ↔
      handleCallTool g name arg = .ok r := by
  unfold dispatchCallTool handleCallTool
  rw [hh]
  cases hp : dispatchPipeline name handler arg with
  | ok obj => simp [hp]
  | error e => simp [hp]

/-- C1 counterexample: "toString" is not one of the six registered tool
names, yet the property access `toolHandlers["toString"]` resolves through
the prototype chain to the inherited (truthy) `Object.prototype.toString`,
so the line-306 check does not throw the unknown-tool error: the
dispatcher proceeds into the try/catch with the inherited member instead
of failing hard with the enumerating message. -/
theorem dispatcher_prototype_lookup_counterexample :
    "toString" ∉ toolNames ∧
    dispatchCallTool (fun _ => 0) "toString" (.str ['h', 'i']) =
      .inheritedMember ∧
    ∀ e, dispatchCallTool (fun _ => 0) "toString" (.str ['h', 'i']) ≠
      .threw e := by
  refine ⟨by decide, rfl, ?_⟩
  intro e h
  rw [show dispatchCallTool (fun _ => 0) "toString" (.str ['h', 'i']) =
    .inheritedMember from rfl] at h
  exact DispatchResult.noConfusion h

/-- C1 (amended): the dispatcher's two-tier error policy, modulo
prototype-chain lookup.  A tool name that is neither registered nor an
`Object.prototype` member name throws (before the try/catch boundary)
with a message enumerating all six registered tool names; a
non-registered name colliding with an `Object.prototype` member finds a
truthy inherited value and skips the unknown-tool throw; for a
registered name the dispatcher never throws, and any failure after
lookup (validation or handler execution) becomes a structured envelope
with `success:false`, the requested tool name and the error message,
flagged `isError:true`. -/
theorem dispatcher_two_tier_errors (g : Nat → Nat) (name : String)
    (arg : JsValue) :
    (name ∉ toolNames → name ∉ objectPrototypeProps →
      dispatchCallTool g name arg = .threw (unknownToolMsg name)) ∧
    unknownToolMsg name = "Unknown tool: " ++ name ++
      ". Available tools: reverse_text, uppercase_text, lowercase_text, word_count, character_count, shuffle_text" ∧
    (name ∉ toolNames → name ∈ objectPrototypeProps →
      dispatchCallTool g name arg = .inheritedMember) ∧
    (name ∈ toolNames → ∃ resp, dispatchCallTool g name arg = .responded resp) ∧
    (∀ handler e, toolHandlers g name = some handler →
      dispatchPipeline name handler arg = .error e →
      dispatchCallTool g name arg =
        .responded ⟨[("success", .b false), ("tool", .s name), ("error", .s e)], true⟩) := by
  refine ⟨?_, ?_, ?_, ?_, ?_⟩
  · intro h hp
    unfold dispatchCallTool
    rw [toolHandlers_eq_none g name h]
    simp only [if_neg hp]
  · rw [unknownToolMsg, String.append_assoc]
    rfl
  · intro h hp
    unfold dispatchCallTool
    rw [toolHandlers_eq_none g name h]
    simp only [if_pos hp]
  · intro hmem
    obtain ⟨handler, hh⟩ := exists_handler_of_mem g name hmem
    cases hp : dispatchPipeline name handler arg with
    | ok obj =>
      refine ⟨⟨obj, false⟩, ?_⟩
      unfold dispatchCallTool
      rw [hh]
      simp only [hp]
    | error e =>
      refine ⟨errorEnvelope name e, ?_⟩
      unfold dispatchCallTool
      rw [hh]
      simp only [hp]
  · intro handler e hh hp
    unfold dispatchCallTool
    rw [hh]
    simp only [hp, errorEnvelope]

/-- Witness for C1 (amended): a name hitting neither the registry nor
`Object.prototype` fails hard with the enumerating message; a registered
name with a non-string argument yields the soft envelope. -/
theorem dispatcher_two_tier_errors_witness :
    ("bogus" ∉ toolNames ∧ "bogus" ∉ objectPrototypeProps ∧
      dispatchCallTool (fun _ => 0) "bogus" (.str []) =
        .threw (unknownToolMsg "bogus")) ∧
    dispatchCallTool (fun _ => 0) "reverse_text" (.num 5) =
      .responded ⟨[("success", .b false), ("tool", .s "reverse_text"),
            ("error", .s (invalidTypeMsg "reverse_text" "number"))], true⟩ := by
  refine ⟨⟨by decide, by decide,
    (dispatcher_two_tier_errors (fun _ => 0) "bogus" (.str [])).1
      (by decide) (by decide)⟩, ?_⟩
  exact (dispatcher_two_tier_errors (fun _ => 0) "reverse_text" (.num 5)).2.2.2.2
    reverseTextHandler (invalidTypeMsg "reverse_text" "number") rfl rfl

end TextUtils

namespace TextUtils

/-- C2: the input validator rejects non-string values with the invalid-type
error, rejects strings longer than `MAX_INPUT_LENGTH = 1000000` with the
input-too-large error, and returns shorter strings unchanged; through the
dispatcher, an over-long input to a registered tool yields the structured
`success:false` envelope rather than a thrown error. -/
theorem validate_input_contract (tn : String) (v : JsValue) (s : List Char)
    (g : Nat → Nat) (name : String) :
    MAX_INPUT_LENGTH = 1000000 ∧
    ((∀ t, v ≠ .str t) →
      validateInput v tn = .error (invalidTypeMsg tn (jsTypeof v))) ∧
    (s.length > MAX_INPUT_LENGTH →
      validateInput (.str s) tn = .error (inputTooLargeMsg tn s.length)) ∧
    (s.length ≤ MAX_INPUT_LENGTH → validateInput (.str s) tn = .ok s) ∧
    (name ∈ toolNames → s.length > MAX_INPUT_LENGTH →
      handleCallTool g name (.str s) =
        .ok (errorEnvelope name (inputTooLargeMsg name s.length))) := by
  refine ⟨rfl, ?_, ?_, ?_, ?_⟩
  · intro h
    cases v with
    | str t => exact absurd rfl (h t)
    | undef => rfl
    | null => rfl
    | bool b => rfl
    | num n => rfl
  · intro h
    simp [validateInput, h]
  · intro h
    simp [validateInput]
    omega
  · intro hmem hlen
    have hne : s.isEmpty = false := by
      cases s with
      | nil => simp [MAX_INPUT_LENGTH] at hlen
      | cons c cs => rfl
    have hcoerce : coerceText (.str s) = .str s := by
      simp [coerceText, truthy, hne]
    have hval : validateInput (.str s) name =
        .error (inputTooLargeMsg name s.length) := by
      simp [validateInput, hlen]
    obtain ⟨handler, hh⟩ := exists_handler_of_mem g name hmem
    have hp : dispatchPipeline name handler (.str s) =
        .error (inputTooLargeMsg name s.length) := by
      unfold dispatchPipeline
      rw [hcoerce, hval]
    unfold handleCallTool
    rw [hh]
    simp only [hp]

/-- Witness for C2: a boolean argument is rejected as invalid type, a
1000001-character string is rejected as too large and, through the
dispatcher, produces the soft failure envelope. -/
theorem validate_input_contract_witness :
    validateInput (.bool true) "word_count" =
      .error (invalidTypeMsg "word_count" "boolean") ∧
    validateInput (.str (List.replicate 1000001 'a')) "word_count" =
      .error (inputTooLargeMsg "word_count" 1000001) ∧
    handleCallTool (fun _ => 0) "word_count" (.str (List.replicate 1000001 'a')) =
      .ok (errorEnvelope "word_count"
        (inputTooLargeMsg "word_count" 1000001)) := by
  have hlen : (List.replicate 1000001 'a').length > MAX_INPUT_LENGTH := by
    rw [List.length_replicate]
    decide
  have h1 := (validate_input_contract "word_count" (.bool true)
    (List.replicate 1000001 'a') (fun _ => 0) "word_count").2.1
    (fun t h => by cases h)
  have h2 := (validate_input_contract "word_count" (.bool true)
    (List.replicate 1000001 'a') (fun _ => 0) "word_count").2.2.1 hlen
  have h3 := (validate_input_contract "word_count" (.bool true)
    (List.replicate 1000001 'a') (fun _ => 0) "word_count").2.2.2.2
    (by decide) hlen
  have hlen1 : (List.replicate 1000001 'a').length = 1000001 :=
    List.length_replicate 1000001 'a'
  rw [hlen1] at h2 h3
  exact ⟨h1, h2, h3⟩

/-- C9: in the stdio dispatcher, a falsy `text` argument (absent, null,
false, 0, empty string) is coerced to the empty string before validation,
so the invocation of a registered tool succeeds with the handler applied
to the empty string; consequently a falsy-or-string argument can never
produce the invalid-type failure — only a truthy non-string can. -/
theorem falsy_text_defaults_to_empty (g : Nat → Nat) (name : String)
    (v : JsValue) (tn : String) (hname : name ∈ toolNames) :
    (truthy v = false →
      handleCallTool g name v = handleCallTool g name (.str []) ∧
      ∃ handler, toolHandlers g name = some handler ∧
        handleCallTool g name v = .ok ⟨handler [], false⟩) ∧
    ((truthy v = false ∨ ∃ s, v = .str s) →
      ∃ s, coerceText v = .str s ∧
        (validateInput (coerceText v) tn = .ok s ∨
         validateInput (coerceText v) tn =
           .error (inputTooLargeMsg tn s.length))) := by
  constructor
  · intro hv
    have hcv : coerceText v = .str [] := by simp [coerceText, hv]
    have hval : validateInput (coerceText v) name = .ok [] := by
      rw [hcv]; rfl
    have hval0 : validateInput (coerceText (.str [])) name = .ok [] := rfl
    obtain ⟨handler, hh⟩ := exists_handler_of_mem g name hname
    have e1 := handleCallTool_ok_of_valid g name handler v [] hh hval
    have e2 := handleCallTool_ok_of_valid g name handler (.str []) [] hh hval0
    exact ⟨by rw [e1, e2], handler, hh, e1⟩
  · intro hor
    by_cases ht : truthy v = true
    · rcases hor with hf | ⟨s, rfl⟩
      · rw [hf] at ht
        exact absurd ht (by simp)
      · have hc : coerceText (.str s) = .str s := by simp [coerceText, ht]
        refine ⟨s, hc, ?_⟩
        rw [hc]
        by_cases hl : s.length > MAX_INPUT_LENGTH
        · right
          simp [validateInput, hl]
        · left
          simp [validateInput]
          omega
    · have hf : truthy v = false := by simpa using ht
      have hc : coerceText v = .str [] := by simp [coerceText, hf]
      refine ⟨[], hc, Or.inl ?_⟩
      rw [hc]
      rfl

/-- Witness for C9: invoking `word_count` with a `null` argument succeeds
with the empty-string result. -/
theorem falsy_text_defaults_to_empty_witness :
    handleCallTool (fun _ => 0) "word_count" .null =
      .ok ⟨wordCountHandler [], false⟩ := by
  obtain ⟨_, handler, hh, he⟩ :=
    (falsy_text_defaults_to_empty (fun _ => 0) "word_count" .null "word_count"
      (by decide)).1 rfl
  have hw : handler = wordCountHandler := by
    have h1 : some handler = some wordCountHandler := by
      rw [← hh]; rfl
    exact Option.some.inj h1
  rw [hw] at he
  exact he

end TextUtils
